import Mathlib

set_option maxRecDepth 100000

set_option maxHeartbeats 3200000

namespace StrapiCache

/-! # Byte-level primitives

The repository hashes cache-key material with SHA-256 and encodes the digest
in URL-safe base64 (Node's `createHash('sha256').update(keyData).digest('base64url')`).
We embed that pipeline executably: bytes are `Nat`s below 256, 32-bit words are
`Nat`s reduced modulo `2 ^ 32`.  All recursions are structural so that concrete
key computations reduce inside the kernel. -/

def M32 : Nat := 4294967296

def add32 (a b : Nat) : Nat := (a + b) % M32

def and32 (a b : Nat) : Nat := Nat.land a b

def xor32 (a b : Nat) : Nat := Nat.xor a b

def not32 (a : Nat) : Nat := 4294967295 - a % M32

def rotr32 (n a : Nat) : Nat := (a / 2 ^ n + a % 2 ^ n * 2 ^ (32 - n)) % M32

def shr32 (n a : Nat) : Nat := a / 2 ^ n

def bsig0 (x : Nat) : Nat := xor32 (rotr32 2 x) (xor32 (rotr32 13 x) (rotr32 22 x))

def bsig1 (x : Nat) : Nat := xor32 (rotr32 6 x) (xor32 (rotr32 11 x) (rotr32 25 x))

def ssig0 (x : Nat) : Nat := xor32 (rotr32 7 x) (xor32 (rotr32 18 x) (shr32 3 x))

def ssig1 (x : Nat) : Nat := xor32 (rotr32 17 x) (xor32 (rotr32 19 x) (shr32 10 x))

def chf (e f g : Nat) : Nat := xor32 (and32 e f) (and32 (not32 e) g)

def majf (a b c : Nat) : Nat := xor32 (and32 a b) (xor32 (and32 a c) (and32 b c))

def shaK : List Nat :=
  [1116352408, 1899447441, 3049323471, 3921009573, 961987163, 1508970993,
   2453635748, 2870763221, 3624381080, 310598401, 607225278, 1426881987,
   1925078388, 2162078206, 2614888103, 3248222580, 3835390401, 4022224774,
   264347078, 604807628, 770255983, 1249150122, 1555081692, 1996064986,
   2554220882, 2821834349, 2952996808, 3210313671, 3336571891, 3584528711,
   113926993, 338241895, 666307205, 773529912, 1294757372, 1396182291,
   1695183700, 1986661051, 2177026350, 2456956037, 2730485921, 2820302411,
   3259730800, 3345764771, 3516065817, 3600352804, 4094571909, 275423344,
   430227734, 506948616, 659060556, 883997877, 958139571, 1322822218,
   1537002063, 1747873779, 1955562222, 2024104815, 2227730452, 2361852424,
   2428436474, 2756734187, 3204031479, 3329325298]

def bytesToWords : List Nat → List Nat
  | a :: b :: c :: d :: rest => (((a * 256 + b) * 256 + c) * 256 + d) :: bytesToWords rest
  | _ => []

/-- Extends the 16-word message schedule to 64 words; the accumulator is kept
reversed so the most recent words are at the head. -/
def extendSchedule : Nat → List Nat → List Nat
  | 0, rw => rw
  | f + 1, rw =>
      let x := add32 (add32 (ssig1 (rw.getD 1 0)) (rw.getD 6 0))
        (add32 (ssig0 (rw.getD 14 0)) (rw.getD 15 0))
      extendSchedule f (x :: rw)

def schedule (block : List Nat) : List Nat :=
  (extendSchedule 48 (bytesToWords block).reverse).reverse

structure Hash8 where
  a : Nat
  b : Nat
  c : Nat
  d : Nat
  e : Nat
  f : Nat
  g : Nat
  h : Nat

def shaStep (s : Hash8) (kw : Nat × Nat) : Hash8 :=
  let t1 := add32 s.h (add32 (bsig1 s.e) (add32 (chf s.e s.f s.g) (add32 kw.1 kw.2)))
  let t2 := add32 (bsig0 s.a) (majf s.a s.b s.c)
  { a := add32 t1 t2, b := s.a, c := s.b, d := s.c,
    e := add32 s.d t1, f := s.e, g := s.f, h := s.g }

def compress (hh : Hash8) (block : List Nat) : Hash8 :=
  let fin := (shaK.zip (schedule block)).foldl shaStep hh
  { a := add32 hh.a fin.a, b := add32 hh.b fin.b, c := add32 hh.c fin.c,
    d := add32 hh.d fin.d, e := add32 hh.e fin.e, f := add32 hh.f fin.f,
    g := add32 hh.g fin.g, h := add32 hh.h fin.h }

def lenBytes8 (n : Nat) : List Nat :=
  [n / 2 ^ 56 % 256, n / 2 ^ 48 % 256, n / 2 ^ 40 % 256, n / 2 ^ 32 % 256,
   n / 2 ^ 24 % 256, n / 2 ^ 16 % 256, n / 2 ^ 8 % 256, n % 256]

def padMessage (msg : List Nat) : List Nat :=
  let l := msg.length
  msg ++ 128 :: List.replicate ((120 - (l + 1) % 64) % 64) 0 ++ lenBytes8 (8 * l)

def toBlocks : Nat → List Nat → List (List Nat)
  | 0, _ => []
  | _ + 1, [] => []
  | f + 1, l => l.take 64 :: toBlocks f (l.drop 64)

def word4 (w : Nat) : List Nat := [w / 2 ^ 24 % 256, w / 2 ^ 16 % 256, w / 2 ^ 8 % 256, w % 256]

def sha256 (msg : List Nat) : List Nat :=
  let padded := padMessage msg
  let hh := (toBlocks padded.length padded).foldl compress
    { a := 1779033703, b := 3144134277, c := 1013904242, d := 2773480762,
      e := 1359893119, f := 2600822924, g := 528734635, h := 1541459225 }
  word4 hh.a ++ word4 hh.b ++ word4 hh.c ++ word4 hh.d ++
    word4 hh.e ++ word4 hh.f ++ word4 hh.g ++ word4 hh.h

def b64c (n : Nat) : Char :=
  if n < 26 then Char.ofNat (65 + n)
  else if n < 52 then Char.ofNat (97 + (n - 26))
  else if n < 62 then Char.ofNat (48 + (n - 52))
  else if n = 62 then '-'
  else '_'

/-- URL-safe base64 without padding, as produced by Node's `digest('base64url')`. -/
def base64url : List Nat → List Char
  | a :: b :: c :: rest =>
      b64c (a / 4) :: b64c (a % 4 * 16 + b / 16) :: b64c (b % 16 * 4 + c / 64) ::
        b64c (c % 64) :: base64url rest
  | [a, b] => [b64c (a / 4), b64c (a % 4 * 16 + b / 16), b64c (b % 16 * 4)]
  | [a] => [b64c (a / 4), b64c (a % 4 * 16)]
  | [] => []

def utf8Char (c : Char) : List Nat :=
  let n := c.toNat
  if n < 128 then [n]
  else if n < 2048 then [192 + n / 64, 128 + n % 64]
  else if n < 65536 then [224 + n / 4096, 128 + n / 64 % 64, 128 + n % 64]
  else [240 + n / 262144, 128 + n / 4096 % 64, 128 + n / 64 % 64, 128 + n % 64]

def utf8 (s : String) : List Nat := (s.data.map utf8Char).flatten

/-- `createHash('sha256').update(s).digest('base64url')`. -/
def hashB64 (s : String) : String := ⟨base64url (sha256 (utf8 s))⟩

/-! # REST cache-key generation (`server/src/utils/key.ts`, `generateCacheKey`)

The source builds
`keyData = method + ":" + url + ":" + queryString + ":" + headersString`
where `queryString` is `JSON.stringify(query)` when the query object has keys
(else the empty string) and `headersString` is `JSON.stringify` of the object
`{'accept-language': h, 'accept': h, 'user-agent': h}`.  `JSON.stringify`
emits object keys in insertion order and omits properties whose value is
`undefined`; we model a query object as an ordered association list and
headers as a partial map. -/

def hexDigit (n : Nat) : Char := if n < 10 then Char.ofNat (48 + n) else Char.ofNat (87 + n)

def jsonEscapeChar (c : Char) : List Char :=
  if c = '"' then ['\\', '"']
  else if c = '\\' then ['\\', '\\']
  else if c = '\x08' then ['\\', 'b']
  else if c = '\x09' then ['\\', 't']
  else if c = '\x0a' then ['\\', 'n']
  else if c = '\x0c' then ['\\', 'f']
  else if c = '\x0d' then ['\\', 'r']
  else if c.toNat < 32 then ['\\', 'u', '0', '0', hexDigit (c.toNat / 16), hexDigit (c.toNat % 16)]
  else [c]

/-- A JSON string literal as produced by `JSON.stringify`. -/
def jsonStr (s : String) : String := ⟨'"' :: (s.data.map jsonEscapeChar).flatten ++ ['"']⟩

/-- A parsed query-parameter value (Koa yields strings or arrays of strings;
the repository's own test feeds numbers). -/
inductive QVal where
  | str (v : String)
  | num (v : Int)
  | arr (vs : List String)
deriving DecidableEq

def joinComma : List String → String
  | [] => ""
  | [x] => x
  | x :: y :: xs => x ++ "," ++ joinComma (y :: xs)

def QVal.json : QVal → String
  | .str v => jsonStr v
  | .num v => toString v
  | .arr vs => "[" ++ joinComma (vs.map jsonStr) ++ "]"

/-- `JSON.stringify` of the query object, whose properties appear in
insertion order. -/
def stringifyQuery (q : List (String × QVal)) : String :=
  "\x7b" ++ joinComma (q.map (fun p => jsonStr p.1 ++ ":" ++ QVal.json p.2)) ++ "\x7d"

/-- `Object.keys(query).length > 0 ? JSON.stringify(query) : ''` -/
def queryString (q : List (String × QVal)) : String :=
  if q.length > 0 then stringifyQuery q else ""

/-- The `relevantHeaders` object literal: three fixed keys in insertion order,
each holding the (possibly undefined) request-header value. -/
def trackedPairs (h : String → Option String) : List (String × Option String) :=
  [("accept-language", h "accept-language"), ("accept", h "accept"), ("user-agent", h "user-agent")]

/-- `JSON.stringify(relevantHeaders)`: keys with `undefined` values are omitted. -/
def headersString (h : String → Option String) : String :=
  "\x7b" ++ joinComma
    ((trackedPairs h).filterMap (fun p => p.2.map (fun v => jsonStr p.1 ++ ":" ++ jsonStr v))) ++
    "\x7d"

structure RestReq where
  method : String
  url : String
  query : List (String × QVal)
  headers : String → Option String

def keyData (r : RestReq) : String :=
  r.method ++ ":" ++ r.url ++ ":" ++ queryString r.query ++ ":" ++ headersString r.headers

def generateCacheKey (r : RestReq) : String := "cache:" ++ hashB64 (keyData r)

/-! # GraphQL payload sanitisation (`generateGraphqlCacheKey`)

`payload.replace(/"password":\s*"[^"]*"/g, '"password":"***"')`: a global,
left-to-right, non-overlapping regex replacement.  `lit` is the literal part
`"password":` of the pattern, `matchTail` handles `\s*"[^"]*"`, and
`replaceAll` is the scan loop of `String.prototype.replace` with a global
regex: try to match at the current position; on success emit the replacement
and resume after the match, otherwise emit one character and advance. -/

def notQuote (c : Char) : Bool := c != '"'

/-- JavaScript's `\s` character class. -/
def isJsWs (c : Char) : Bool :=
  c.toNat == 32 || c.toNat == 9 || c.toNat == 10 || c.toNat == 11 || c.toNat == 12 ||
  c.toNat == 13 || c.toNat == 160 || c.toNat == 5760 ||
  (decide (8192 ≤ c.toNat) && decide (c.toNat ≤ 8202)) ||
  c.toNat == 8232 || c.toNat == 8233 || c.toNat == 8239 || c.toNat == 8287 ||
  c.toNat == 12288 || c.toNat == 65279

def lit : List Char := ['"', 'p', 'a', 's', 's', 'w', 'o', 'r', 'd', '"', ':']

def repl : List Char := ['"', 'p', 'a', 's', 's', 'w', 'o', 'r', 'd', '"', ':', '"', '*', '*', '*', '"']

/-- `repl` without its leading quote. -/
def replTail : List Char := ['p', 'a', 's', 's', 'w', 'o', 'r', 'd', '"', ':', '"', '*', '*', '*', '"']

/-- Matches `\s*"[^"]*"` at the head of `t`, returning the rest on success. -/
def matchTail (t : List Char) : Option (List Char) :=
  match t.dropWhile isJsWs with
  | [] => none
  | x :: s3 =>
    if x = '"' then
      match s3.dropWhile notQuote with
      | [] => none
      | y :: s5 => if y = '"' then some s5 else none
    else none

/-- Matches the whole pattern `"password":\s*"[^"]*"` at the head of `s`. -/
def matchAt (s : List Char) : Option (List Char) :=
  if lit.isPrefixOf s then matchTail (s.drop 11) else none

def replaceAll (s : List Char) : List Char :=
  match s with
  | [] => []
  | c :: cs =>
    match h : matchAt (c :: cs) with
    | some rest => repl ++ replaceAll rest
    | none => c :: replaceAll cs
termination_by s.length
decreasing_by
  · simp only [List.length_cons]
    unfold matchAt at h
    by_cases hp : lit.isPrefixOf (y :: s5)
    · rw [if_pos hp] at h
      unfold matchTail at h
      have h11 : (List.drop 11 (y :: s5)).length ≤ s5.length := by
        simp [List.length_drop]
      split at h
      next => cases h
      next x s3 hw =>
        have hs3 : s3.length < (List.drop 11 (y :: s5)).length := by
          have := (List.dropWhile_sublist (l := List.drop 11 (y :: s5)) isJsWs).length_le
          rw [hw] at this
          simpa using Nat.lt_of_lt_of_le (Nat.lt_succ_self _) this
        split at h
        · split at h
          next => cases h
          next z s6 hv =>
            have hs5 : s6.length < s3.length := by
              have := (List.dropWhile_sublist (l := s3) notQuote).length_le
              rw [hv] at this
              simpa using Nat.lt_of_lt_of_le (Nat.lt_succ_self _) this
            split at h
            · cases h
              omega
            · cases h
        · cases h
    · rw [if_neg hp] at h
      cases h
  · simp

/-- `const sanitizedPayload = payload.replace(/"password":\s*"[^"]*"/g, '"password":"***"')` -/
def sanitize (payload : String) : String := ⟨replaceAll payload.data⟩

def generateGraphqlCacheKey (payload : String) : String :=
  "graphql:" ++ hashB64 (sanitize payload)

/-! # GraphQL caching middleware (`server/src/middlewares/graphql.ts`)

The middleware is embedded as a function from the request, the current cache
content and the (hypothetical) downstream response to the produced response,
the list of provider operations it issued, and the new cache content.  The
streamed-body branch is not modelled: `ctx.body` is taken to be a
materialised value (the `else` branch of the store step). -/

def includesAux (pat : List Char) : List Char → Bool
  | [] => pat.isEmpty
  | c :: cs => pat.isPrefixOf (c :: cs) || includesAux pat cs

/-- JavaScript `String.prototype.includes`. -/
def strIncludes (s pat : String) : Bool := includesAux pat.data s.data

/-- JavaScript `String.prototype.startsWith`. -/
def strStartsWith (s pat : String) : Bool := pat.data.isPrefixOf s.data

/-- Truthiness of a possibly-absent string header value. -/
def truthy : Option String → Bool
  | none => false
  | some v => !(v == "")

/-- `h && h.includes(pat)` for a possibly-absent header value. -/
def optIncludes (o : Option String) (pat : String) : Bool :=
  match o with
  | none => false
  | some v => truthy (some v) && strIncludes v pat

structure CacheEntry where
  body : String
  headers : List (String × String)
deriving DecidableEq

/-- The cache content, newest binding first (`set` shadows older bindings). -/
abbrev Store := List (String × CacheEntry)

inductive CacheOp where
  | get (key : String)
  | set (key : String) (entry : CacheEntry)
deriving DecidableEq

structure CacheConfig where
  cacheHeaders : Bool
  cacheHeadersDenyList : List String
  cacheHeadersAllowList : List String
  cacheAuthorizedRequests : Bool

structure GqlRequest where
  method : String
  url : String
  body : String
  headers : String → Option String

structure Downstream where
  status : Nat
  body : String
  headers : List (String × String)

structure MwResult where
  status : Nat
  body : String
  setHeaders : List (String × String)
  nextInvoked : Bool
  ops : List CacheOp
deriving DecidableEq

/-- Modelled from the spec: the HeaderPolicy helper `getHeadersToStore` of
`server/src/utils/header.ts` is not among the analyzed sources.  Per spec
§4.6: if header caching is disabled nothing is stored; otherwise every
response header not on the deny list, intersected with the allow list when
the allow list is nonempty. -/
def getHeadersToStore (respHeaders : List (String × String)) (cacheHeaders : Bool)
    (allowList denyList : List String) : List (String × String) :=
  if cacheHeaders then
    (respHeaders.filter (fun p => !(denyList.contains p.1))).filter
      (fun p => allowList.isEmpty || allowList.contains p.1)
  else []

/-- The entry stored on a miss: `{ body: ctx.body, headers: headersToStore }`. -/
def mkStoredEntry (cfg : CacheConfig) (down : Downstream) : CacheEntry :=
  { body := down.body,
    headers := getHeadersToStore down.headers cfg.cacheHeaders
      cfg.cacheHeadersAllowList cfg.cacheHeadersDenyList }

/-- The tail of the middleware after `await next()`: cache the response when
the request is a successful POST to `/graphql`, re-checking the
authorization bypass. -/
def gqlAfterNext (cfg : CacheConfig) (store : Store) (req : GqlRequest) (down : Downstream)
    (key : String) : MwResult × Store :=
  if req.method == "POST" && decide (200 ≤ down.status) && decide (down.status < 300)
      && strStartsWith req.url "/graphql" then
    if truthy (req.headers "authorization") && !cfg.cacheAuthorizedRequests then
      ({ status := down.status, body := down.body, setHeaders := [], nextInvoked := true,
         ops := [CacheOp.get key] }, store)
    else
      ({ status := down.status, body := down.body, setHeaders := [], nextInvoked := true,
         ops := [CacheOp.get key, CacheOp.set key (mkStoredEntry cfg down)] },
       (key, mkStoredEntry cfg down) :: store)
  else
    ({ status := down.status, body := down.body, setHeaders := [], nextInvoked := true,
       ops := [CacheOp.get key] }, store)

def gqlMiddleware (cfg : CacheConfig) (store : Store) (req : GqlRequest) (down : Downstream) :
    MwResult × Store :=
  if strIncludes req.body "IntrospectionQuery" then
    ({ status := down.status, body := down.body, setHeaders := [], nextInvoked := true,
       ops := [] }, store)
  else
    let key := generateGraphqlCacheKey req.body
    if truthy (req.headers "authorization") && !cfg.cacheAuthorizedRequests then
      ({ status := down.status, body := down.body, setHeaders := [], nextInvoked := true,
         ops := [CacheOp.get key] }, store)
    else
      match store.lookup key, optIncludes (req.headers "cache-control") "no-cache" with
      | some entry, false =>
        ({ status := 200, body := entry.body,
           setHeaders := if cfg.cacheHeaders then entry.headers else [],
           nextInvoked := false, ops := [CacheOp.get key] }, store)
      | some _, true => gqlAfterNext cfg store req down key
      | none, _ => gqlAfterNext cfg store req down key

/-! # Cache providers

`InMemoryCacheProvider` (`server/src/services/memory/provider.ts`) and
`RedisCacheProvider` (`server/src/services/redis/provider.ts`).  The backing
stores (the `lru-cache` instance, the Redis connection) are external
libraries and are modelled as association lists; TTL/eviction/recency and
network timeouts are outside the embedded state.  Operations take a runtime
JavaScript key value, since the guards `!key || typeof key !== 'string'`
concern exactly the non-string / empty cases. -/

inductive JsKey where
  | jstr (s : String)
  | jnull
  | jundefined
  | jnum (n : Int)
  | jbool (b : Bool)
deriving DecidableEq

/-- `!key || typeof key !== 'string'`. -/
def invalidKey : JsKey → Bool
  | .jstr s => s == ""
  | _ => true

structure MemoryProviderState (α : Type) where
  initialized : Bool
  provider : Option (List (String × α))

/-- `get ready() { return this.initialized && this.provider !== undefined; }` -/
def memReady (st : MemoryProviderState α) : Bool := st.initialized && st.provider.isSome

namespace InMemoryCacheProvider

def get (st : MemoryProviderState α) (key : JsKey) : Option α × MemoryProviderState α :=
  if !memReady st then (none, st)
  else if invalidKey key then (none, st)
  else match key, st.provider with
    | .jstr s, some m => (m.lookup s, st)
    | _, _ => (none, st)

def set (st : MemoryProviderState α) (key : JsKey) (v : α) : Option α × MemoryProviderState α :=
  if !memReady st then (none, st)
  else if invalidKey key then (none, st)
  else match key, st.provider with
    | .jstr s, some m => (some v, { st with provider := some ((s, v) :: m) })
    | _, _ => (none, st)

def del (st : MemoryProviderState α) (key : JsKey) : Option Bool × MemoryProviderState α :=
  if !memReady st then (none, st)
  else if invalidKey key then (none, st)
  else match key, st.provider with
    | .jstr s, some m =>
      (some (m.lookup s).isSome, { st with provider := some (m.filter (fun p => !(p.1 == s))) })
    | _, _ => (none, st)

def keys (st : MemoryProviderState α) : Option (List String) × MemoryProviderState α :=
  if !memReady st then (none, st)
  else match st.provider with
    | some m => (some (m.map Prod.fst), st)
    | none => (none, st)

def reset (st : MemoryProviderState α) : Option Bool × MemoryProviderState α :=
  if !memReady st then (none, st)
  else match st.provider with
    | some _ => (some true, { st with provider := some [] })
    | none => (none, st)

def clearByRegexp (st : MemoryProviderState α) (regExps : List (String → Bool)) :
    MemoryProviderState α :=
  if !memReady st then st
  else match st.provider with
    | some m => { st with provider := some (m.filter (fun p => !(regExps.any (fun re => re p.1)))) }
    | none => st

end InMemoryCacheProvider

structure RedisProviderState where
  initialized : Bool
  client : Option (List (String × String))
deriving DecidableEq

/-- `get ready() { return this.initialized && this.client !== undefined; }` -/
def redisReady (st : RedisProviderState) : Bool := st.initialized && st.client.isSome

namespace RedisCacheProvider

/-- `dec` is `JSON.parse`, whose failure is caught and turned into `null`. -/
def get (dec : String → Option α) (st : RedisProviderState) (key : JsKey) :
    Option α × RedisProviderState :=
  if !redisReady st then (none, st)
  else if invalidKey key then (none, st)
  else match key, st.client with
    | .jstr s, some m =>
      ((m.lookup s).bind dec, st)
    | _, _ => (none, st)

/-- `enc` is `JSON.stringify`, whose failure is caught and turned into `null`. -/
def set (enc : α → Option String) (st : RedisProviderState) (key : JsKey) (v : α) :
    Option α × RedisProviderState :=
  if !redisReady st then (none, st)
  else if invalidKey key then (none, st)
  else match key, st.client with
    | .jstr s, some m =>
      (match enc v with
       | none => (none, st)
       | some raw => (some v, { st with client := some ((s, raw) :: m) }))
    | _, _ => (none, st)

def del (st : RedisProviderState) (key : JsKey) : Option Bool × RedisProviderState :=
  if !redisReady st then (none, st)
  else if invalidKey key then (none, st)
  else match key, st.client with
    | .jstr s, some m =>
      (some true, { st with client := some (m.filter (fun p => !(p.1 == s))) })
    | _, _ => (none, st)

/-- `await this.client.keys('*')`: the pattern `*` matches every key in the
database, namespaced or not. -/
def keys (st : RedisProviderState) : Option (List String) × RedisProviderState :=
  if !redisReady st then (none, st)
  else match st.client with
    | some m => (some (m.map Prod.fst), st)
    | none => (none, st)

/-- `await this.client.flushdb()`. -/
def reset (st : RedisProviderState) : Option Bool × RedisProviderState :=
  if !redisReady st then (none, st)
  else match st.client with
    | some _ => (some true, { st with client := some [] })
    | none => (none, st)

def clearByRegexp (st : RedisProviderState) (regExps : List (String → Bool)) :
    RedisProviderState :=
  if !redisReady st then st
  else match st.client with
    | some m => { st with client := some (m.filter (fun p => !(regExps.any (fun re => re p.1)))) }
    | none => st

end RedisCacheProvider

/-! # Configuration validation (`test-cache-improvements.js`, `validateConfig`) -/

inductive JsVal where
  | num (n : Int)
  | str (s : String)
  | jbool (b : Bool)
  | jnull
deriving DecidableEq

def jsIsNumber : JsVal → Bool
  | .num _ => true
  | _ => false

def jsIsString : JsVal → Bool
  | .str _ => true
  | _ => false

def jsLe0 : JsVal → Bool
  | .num n => decide (n ≤ 0)
  | _ => false

def jsLt0 : JsVal → Bool
  | .num n => decide (n < 0)
  | _ => false

/-- `['memory', 'redis'].includes(config.provider)`. -/
def jsProviderOk : JsVal → Bool
  | .str s => s == "memory" || s == "redis"
  | _ => false

structure RawConfig where
  max : JsVal
  ttl : JsVal
  size : JsVal
  provider : JsVal

def validateConfig (c : RawConfig) : List String :=
  (if !jsIsNumber c.max || jsLe0 c.max then ["max must be a positive number"] else []) ++
  (if !jsIsNumber c.ttl || jsLt0 c.ttl then ["ttl must be a non-negative number"] else []) ++
  (if !jsIsNumber c.size || jsLe0 c.size then ["size must be a positive number"] else []) ++
  (if !jsIsString c.provider || !jsProviderOk c.provider then
    ["provider must be \"memory\" or \"redis\""] else [])

/-! # Concrete fixtures used by witnesses and counterexamples -/

/-- The first eight characters of the redaction pattern's literal part. -/
def pwd8 : List Char := ['p', 'a', 's', 's', 'w', 'o', 'r', 'd']

/-- `lit` without its leading quote. -/
def tlit : List Char := ['p', 'a', 's', 's', 'w', 'o', 'r', 'd', '"', ':']

def hdrsCommon : String → Option String := fun s =>
  if s = "accept-language" then some "en" else if s = "accept" then some "aj"
  else if s = "user-agent" then some "ua" else none

def reqQ12 : RestReq :=
  { method := "GET", url := "/api/articles",
    query := [("a", QVal.str "1"), ("b", QVal.str "2")], headers := hdrsCommon }

def reqQ21 : RestReq :=
  { method := "GET", url := "/api/articles",
    query := [("b", QVal.str "2"), ("a", QVal.str "1")], headers := hdrsCommon }

def hdrAuthAlpha : String → Option String := fun s =>
  if s = "accept-language" then some "en" else if s = "accept" then some "aj"
  else if s = "user-agent" then some "ua"
  else if s = "authorization" then some "Bearer alpha" else none

def hdrAuthBeta : String → Option String := fun s =>
  if s = "accept-language" then some "en" else if s = "accept" then some "aj"
  else if s = "user-agent" then some "ua"
  else if s = "authorization" then some "Bearer beta"
  else if s = "x-trace-id" then some "trace-42" else none

def hdrNoAccept : String → Option String := fun s =>
  if s = "accept-language" then some "en" else if s = "user-agent" then some "ua" else none

def hdrEmptyAccept : String → Option String := fun s =>
  if s = "accept-language" then some "en" else if s = "user-agent" then some "ua"
  else if s = "accept" then some "" else none

/-- The mock context of `test-cache-improvements.js`. -/
def mockReq : RestReq :=
  { method := "GET", url := "/api/articles",
    query := [("page", QVal.num 1), ("limit", QVal.num 10)],
    headers := fun s =>
      if s = "accept-language" then some "en-US,en;q=0.9"
      else if s = "accept" then some "application/json"
      else if s = "user-agent" then some "Mozilla/5.0 (Test Browser)"
      else if s = "authorization" then some "Bearer test-token" else none }

def gqlCfg : CacheConfig :=
  { cacheHeaders := true, cacheHeadersDenyList := [], cacheHeadersAllowList := [],
    cacheAuthorizedRequests := false }

def gqlBody : String := "\x7b\"query\":\"\x7b articles \x7b id \x7d \x7d\"\x7d"

def introBody : String :=
  "\x7b\"query\":\"\x7b posts(f: \\\"IntrospectionQuery\\\") \x7b id \x7d \x7d\"\x7d"

def reqAuthorized : GqlRequest :=
  { method := "POST", url := "/graphql", body := gqlBody,
    headers := fun s => if s = "authorization" then some "Bearer token" else none }

def reqNoCacheHdr : GqlRequest :=
  { method := "POST", url := "/graphql", body := gqlBody,
    headers := fun s => if s = "cache-control" then some "no-cache" else none }

def reqPlain : GqlRequest :=
  { method := "POST", url := "/graphql", body := gqlBody, headers := fun _ => none }

def reqIntro : GqlRequest :=
  { method := "POST", url := "/graphql", body := introBody, headers := fun _ => none }

def downstreamOk : Downstream :=
  { status := 200, body := "resp", headers := [("content-type", "application/json")] }

def down201 : Downstream := { status := 201, body := "created", headers := [] }

def someEntry : CacheEntry :=
  { body := "cached-body", headers := [("content-type", "text/plain")] }

/-! # Claim theorems -/

/-- C3: two REST requests identical in method, url and query and in the three
tracked headers (`accept-language`, `accept`, `user-agent`) receive the same
cache key from `generateCacheKey`, however they differ in any other header,
`authorization` included: the key material reads no other header. -/
theorem cacheKey_untracked_header_noninterference
    (m u : String) (q : List (String × QVal)) (h1 h2 : String → Option String)
    (hal : h1 "accept-language" = h2 "accept-language")
    (hac : h1 "accept" = h2 "accept")
    (hua : h1 "user-agent" = h2 "user-agent") :
    generateCacheKey ⟨m, u, q, h1⟩ = generateCacheKey ⟨m, u, q, h2⟩ := by
  unfold generateCacheKey keyData headersString trackedPairs
  dsimp only
  rw [hal, hac, hua]

/-- Witness for C3 at headers differing in `authorization` and in an extra
untracked header. -/
theorem cacheKey_untracked_header_noninterference_witness :
    hdrAuthAlpha "authorization" ≠ hdrAuthBeta "authorization" ∧
    generateCacheKey ⟨"GET", "/api/articles", [("p", QVal.str "1")], hdrAuthAlpha⟩ =
      generateCacheKey ⟨"GET", "/api/articles", [("p", QVal.str "1")], hdrAuthBeta⟩ :=
  ⟨by decide,
   cacheKey_untracked_header_noninterference "GET" "/api/articles" [("p", QVal.str "1")]
     hdrAuthAlpha hdrAuthBeta rfl rfl rfl⟩

/-- C1 amended: the cache key is a function of the `JSON.stringify` image of
the query object (plus method, url and tracked headers); since
`JSON.stringify` emits keys in insertion order, value-equal query objects in
different insertion order serialize differently and then hash to different
keys (see the counterexample). -/
theorem cacheKey_depends_only_on_query_serialization
    (m u : String) (q1 q2 : List (String × QVal)) (h1 h2 : String → Option String)
    (hq : queryString q1 = queryString q2)
    (hal : h1 "accept-language" = h2 "accept-language")
    (hac : h1 "accept" = h2 "accept")
    (hua : h1 "user-agent" = h2 "user-agent") :
    generateCacheKey ⟨m, u, q1, h1⟩ = generateCacheKey ⟨m, u, q2, h2⟩ := by
  unfold generateCacheKey keyData headersString trackedPairs
  dsimp only
  rw [hq, hal, hac, hua]

/-- Witness for the amended C1. -/
theorem cacheKey_depends_only_on_query_serialization_witness :
    queryString [("p", QVal.str "1")] = queryString [("p", QVal.str "1")] ∧
    generateCacheKey ⟨"GET", "/api/things", [("p", QVal.str "1")], hdrAuthAlpha⟩ =
      generateCacheKey ⟨"GET", "/api/things", [("p", QVal.str "1")], hdrAuthBeta⟩ :=
  ⟨rfl,
   cacheKey_depends_only_on_query_serialization "GET" "/api/things"
     [("p", QVal.str "1")] [("p", QVal.str "1")] hdrAuthAlpha hdrAuthBeta rfl rfl rfl rfl⟩

/-- C5 amended: a tracked header that is absent is omitted from the
serialized `relevantHeaders` mapping (`JSON.stringify` drops `undefined`
properties); it is not serialized as the empty string, so absence and an
empty-string value yield different key material (see the counterexample). -/
theorem absent_header_omitted (h : String → Option String) (al ua : String)
    (hal : h "accept-language" = some al) (hac : h "accept" = none)
    (hua : h "user-agent" = some ua) :
    headersString h =
      "\x7b" ++ (jsonStr "accept-language" ++ ":" ++ jsonStr al) ++ "," ++
        (jsonStr "user-agent" ++ ":" ++ jsonStr ua) ++ "\x7d" := by
  unfold headersString trackedPairs
  rw [hal, hac, hua]
  apply String.ext
  simp [joinComma, String.data_append, List.append_assoc]

/-- Fidelity check: on the mock context of `test-cache-improvements.js` the
embedded `generateCacheKey` reproduces the key documented in
`CHANGES_SUMMARY.md`. -/
theorem generateCacheKey_matches_repo_vector :
    generateCacheKey mockReq = "cache:P3rxvEzSw4SKXAS5sx1JnsxVAuiOYchTLQK54JJcPxs" := by
  decide

/-- C1 counterexample: two value-equal query objects — `a` then `b` versus
`b` then `a`, a permutation of the same key/value pairs — with identical
method, url and headers produce different keys: `JSON.stringify` serializes
object keys in insertion order, so the hashed key material differs. -/
theorem cacheKey_query_order_counterexample :
    reqQ12.query.Perm reqQ21.query ∧
    reqQ12.method = reqQ21.method ∧ reqQ12.url = reqQ21.url ∧
    reqQ12.headers = reqQ21.headers ∧
    generateCacheKey reqQ12 ≠ generateCacheKey reqQ21 := by
  refine ⟨by decide, rfl, rfl, rfl, by decide⟩

/-- C5 counterexample: a request lacking the tracked `accept` header and the
identical request carrying `accept` with the empty-string value produce
different keys — the absent header is omitted from the serialized mapping
rather than substituted by the empty string. -/
theorem absent_header_counterexample :
    hdrNoAccept "accept" = none ∧ hdrEmptyAccept "accept" = some "" ∧
    hdrNoAccept "accept-language" = hdrEmptyAccept "accept-language" ∧
    hdrNoAccept "user-agent" = hdrEmptyAccept "user-agent" ∧
    generateCacheKey ⟨"GET", "/api/articles", [], hdrNoAccept⟩ ≠
      generateCacheKey ⟨"GET", "/api/articles", [], hdrEmptyAccept⟩ := by
  refine ⟨rfl, rfl, rfl, rfl, by decide⟩

/-- Witness for the amended C5, applied at a header map lacking `accept`. -/
theorem absent_header_omitted_witness :
    hdrNoAccept "accept-language" = some "en" ∧ hdrNoAccept "accept" = none ∧
    hdrNoAccept "user-agent" = some "ua" ∧
    headersString hdrNoAccept =
      "\x7b" ++ (jsonStr "accept-language" ++ ":" ++ jsonStr "en") ++ "," ++
        (jsonStr "user-agent" ++ ":" ++ jsonStr "ua") ++ "\x7d" :=
  ⟨rfl, rfl, rfl, absent_header_omitted hdrNoAccept "en" "ua" rfl rfl rfl⟩

/-- C8: validating `{max: -1, ttl: -1000, size: 0, provider: "invalid"}`
fails with exactly one error per violated rule — four errors, in rule
order. -/
theorem validateConfig_four_errors :
    validateConfig ⟨.num (-1), .num (-1000), .num 0, .str "invalid"⟩ =
      ["max must be a positive number", "ttl must be a non-negative number",
       "size must be a positive number", "provider must be \"memory\" or \"redis\""] ∧
    (validateConfig ⟨.num (-1), .num (-1000), .num 0, .str "invalid"⟩).length = 4 :=
  ⟨rfl, rfl⟩

/-- C4: every data operation of either provider returns the null/no-op
outcome and leaves the state untouched when the provider is not ready, and
`get`/`set`/`delete` do the same for a null, empty or non-string key. -/
theorem provider_guards (α : Type) (v : α) (enc : α → Option String) (dec : String → Option α)
    (mst : MemoryProviderState α) (rst : RedisProviderState) (key : JsKey)
    (regExps : List (String → Bool)) :
    (memReady mst = false →
      InMemoryCacheProvider.get mst key = (none, mst) ∧
      InMemoryCacheProvider.set mst key v = (none, mst) ∧
      InMemoryCacheProvider.del mst key = (none, mst) ∧
      InMemoryCacheProvider.keys mst = (none, mst) ∧
      InMemoryCacheProvider.reset mst = (none, mst) ∧
      InMemoryCacheProvider.clearByRegexp mst regExps = mst) ∧
    (invalidKey key = true →
      InMemoryCacheProvider.get mst key = (none, mst) ∧
      InMemoryCacheProvider.set mst key v = (none, mst) ∧
      InMemoryCacheProvider.del mst key = (none, mst)) ∧
    (redisReady rst = false →
      RedisCacheProvider.get dec rst key = (none, rst) ∧
      RedisCacheProvider.set enc rst key v = (none, rst) ∧
      RedisCacheProvider.del rst key = (none, rst) ∧
      RedisCacheProvider.keys rst = (none, rst) ∧
      RedisCacheProvider.reset rst = (none, rst) ∧
      RedisCacheProvider.clearByRegexp rst regExps = rst) ∧
    (invalidKey key = true →
      RedisCacheProvider.get dec rst key = (none, rst) ∧
      RedisCacheProvider.set enc rst key v = (none, rst) ∧
      RedisCacheProvider.del rst key = (none, rst)) := by
  refine ⟨fun h => ?_, fun h => ?_, fun h => ?_, fun h => ?_⟩
  · simp [InMemoryCacheProvider.get, InMemoryCacheProvider.set, InMemoryCacheProvider.del,
      InMemoryCacheProvider.keys, InMemoryCacheProvider.reset,
      InMemoryCacheProvider.clearByRegexp, h]
  · by_cases hr : memReady mst <;>
      simp [InMemoryCacheProvider.get, InMemoryCacheProvider.set, InMemoryCacheProvider.del,
        h, hr]
  · simp [RedisCacheProvider.get, RedisCacheProvider.set, RedisCacheProvider.del,
      RedisCacheProvider.keys, RedisCacheProvider.reset, RedisCacheProvider.clearByRegexp, h]
  · by_cases hr : redisReady rst <;>
      simp [RedisCacheProvider.get, RedisCacheProvider.set, RedisCacheProvider.del, h, hr]

/-- Witness for C4: an uninitialized memory provider and Redis provider with
a null key. -/
theorem provider_guards_witness :
    memReady (⟨false, none⟩ : MemoryProviderState String) = false ∧
    redisReady ⟨false, none⟩ = false ∧
    invalidKey JsKey.jnull = true ∧
    InMemoryCacheProvider.get (⟨false, none⟩ : MemoryProviderState String) JsKey.jnull =
      (none, ⟨false, none⟩) ∧
    RedisCacheProvider.set (fun s => some s) ⟨false, none⟩ JsKey.jnull "v" =
      (none, ⟨false, none⟩) :=
  ⟨rfl, rfl, rfl,
   ((provider_guards String "v" (fun s => some s) (fun s => some s)
      ⟨false, none⟩ ⟨false, none⟩ JsKey.jnull []).1 rfl).1,
   (((provider_guards String "v" (fun s => some s) (fun s => some s)
      ⟨false, none⟩ ⟨false, none⟩ JsKey.jnull []).2.2.1 rfl).2).1⟩

/-- C9 counterexample: `keys()` issues `KEYS *`; on a ready provider whose
database also holds a key outside the `cache:`/`graphql:` namespace, that
foreign key is returned, so the enumeration is not restricted to the
provider's namespace. -/
theorem redis_keys_namespace_counterexample :
    (RedisCacheProvider.keys ⟨true, some [("cache:a", "x"), ("session:42", "y")]⟩).1 =
      some ["cache:a", "session:42"] ∧
    "session:42" ∈ ["cache:a", "session:42"] ∧
    strStartsWith "session:42" "cache:" = false ∧
    strStartsWith "session:42" "graphql:" = false := by
  refine ⟨rfl, by decide, rfl, rfl⟩

/-- C9 amended: `keys()` enumerates every key of the connected database
(pattern `*`) — a superset of the provider's namespaced keys that may
include foreign keys. -/
theorem redis_keys_returns_all (st : RedisProviderState) (m : List (String × String))
    (hi : st.initialized = true) (hc : st.client = some m) :
    RedisCacheProvider.keys st = (some (m.map Prod.fst), st) := by
  simp [RedisCacheProvider.keys, redisReady, hi, hc]

/-- Witness for the amended C9. -/
theorem redis_keys_returns_all_witness :
    RedisCacheProvider.keys ⟨true, some [("cache:a", "x"), ("graphql:b", "y")]⟩ =
      (some ["cache:a", "graphql:b"], ⟨true, some [("cache:a", "x"), ("graphql:b", "y")]⟩) :=
  redis_keys_returns_all ⟨true, some [("cache:a", "x"), ("graphql:b", "y")]⟩
    [("cache:a", "x"), ("graphql:b", "y")] rfl rfl

/-- C2 counterexample: a GraphQL request that carries an authorization
header while `cacheAuthorizedRequests` is disabled is passed through, but a
provider `get` IS issued — the lookup precedes the bypass check; and for a
`no-cache` request the successful response is even stored (a `set` is
issued), contradicting "no lookup, no store". -/
theorem gql_bypass_counterexample :
    truthy (reqAuthorized.headers "authorization") = true ∧
    gqlCfg.cacheAuthorizedRequests = false ∧
    (gqlMiddleware gqlCfg [] reqAuthorized downstreamOk).1.ops =
      [CacheOp.get (generateGraphqlCacheKey gqlBody)] ∧
    optIncludes (reqNoCacheHdr.headers "cache-control") "no-cache" = true ∧
    (gqlMiddleware gqlCfg [] reqNoCacheHdr downstreamOk).1.ops =
      [CacheOp.get (generateGraphqlCacheKey gqlBody),
       CacheOp.set (generateGraphqlCacheKey gqlBody) (mkStoredEntry gqlCfg downstreamOk)] := by
  have hI : strIncludes gqlBody "IntrospectionQuery" = false := by decide
  refine ⟨by decide, rfl, ?_, by decide, ?_⟩
  · simp [gqlMiddleware, reqAuthorized, gqlCfg, truthy, hI]
  · simp [gqlMiddleware, gqlAfterNext, reqNoCacheHdr, gqlCfg, truthy, optIncludes,
      downstreamOk, strStartsWith, hI]

/-- C2 amended: a GraphQL request carrying an authorization credential while
caching of authorized requests is disabled is passed through — downstream
runs, nothing is served from cache and nothing is stored — but the provider
lookup is still issued (the `get` precedes the bypass check).  A `no-cache`
request is likewise never served from cache and its lookup is still issued,
and (absent the authorization bypass) its successful response IS stored. -/
theorem gql_bypass_amended (cfg : CacheConfig) (store : Store) (req : GqlRequest)
    (down : Downstream) :
    (strIncludes req.body "IntrospectionQuery" = false →
      truthy (req.headers "authorization") = true →
      cfg.cacheAuthorizedRequests = false →
      gqlMiddleware cfg store req down =
        ({ status := down.status, body := down.body, setHeaders := [], nextInvoked := true,
           ops := [CacheOp.get (generateGraphqlCacheKey req.body)] }, store)) ∧
    (strIncludes req.body "IntrospectionQuery" = false →
      truthy (req.headers "authorization") = false →
      optIncludes (req.headers "cache-control") "no-cache" = true →
      req.method = "POST" → 200 ≤ down.status → down.status < 300 →
      strStartsWith req.url "/graphql" = true →
      gqlMiddleware cfg store req down =
        ({ status := down.status, body := down.body, setHeaders := [], nextInvoked := true,
           ops := [CacheOp.get (generateGraphqlCacheKey req.body),
             CacheOp.set (generateGraphqlCacheKey req.body) (mkStoredEntry cfg down)] },
         (generateGraphqlCacheKey req.body, mkStoredEntry cfg down) :: store)) := by
  constructor
  · intro hI hA hC
    simp [gqlMiddleware, hI, hA, hC]
  · intro hI hA hNC hM hS1 hS2 hU
    cases hL : List.lookup (generateGraphqlCacheKey req.body) store with
    | none => simp [gqlMiddleware, gqlAfterNext, hI, hA, hNC, hM, hS1, hS2, hU, hL]
    | some e => simp [gqlMiddleware, gqlAfterNext, hI, hA, hNC, hM, hS1, hS2, hU, hL]

/-- Witness for the amended C2, at an authorized request and a `no-cache`
request. -/
theorem gql_bypass_amended_witness :
    truthy (reqAuthorized.headers "authorization") = true ∧
    optIncludes (reqNoCacheHdr.headers "cache-control") "no-cache" = true ∧
    gqlMiddleware gqlCfg [] reqAuthorized downstreamOk =
      ({ status := downstreamOk.status, body := downstreamOk.body, setHeaders := [],
         nextInvoked := true,
         ops := [CacheOp.get (generateGraphqlCacheKey reqAuthorized.body)] }, []) ∧
    gqlMiddleware gqlCfg [] reqNoCacheHdr downstreamOk =
      ({ status := downstreamOk.status, body := downstreamOk.body, setHeaders := [],
         nextInvoked := true,
         ops := [CacheOp.get (generateGraphqlCacheKey reqNoCacheHdr.body),
           CacheOp.set (generateGraphqlCacheKey reqNoCacheHdr.body)
             (mkStoredEntry gqlCfg downstreamOk)] },
       [(generateGraphqlCacheKey reqNoCacheHdr.body, mkStoredEntry gqlCfg downstreamOk)]) :=
  ⟨by decide, by decide,
   (gql_bypass_amended gqlCfg [] reqAuthorized downstreamOk).1 (by decide) (by decide) rfl,
   (gql_bypass_amended gqlCfg [] reqNoCacheHdr downstreamOk).2 (by decide) rfl (by decide)
     rfl (by decide) (by decide) (by decide)⟩

/-- C7 amended: on a hit (entry found, bypass not requested) the middleware
replays the stored body, replays the stored header subset exactly when
header caching is enabled, and terminates without invoking downstream — but
the replayed status is the constant 200, not the status of the originally
cached response (no status is stored at all; see the counterexample). -/
theorem gql_hit_path (cfg : CacheConfig) (store : Store) (req : GqlRequest) (down : Downstream)
    (entry : CacheEntry)
    (hI : strIncludes req.body "IntrospectionQuery" = false)
    (hA : truthy (req.headers "authorization") = false)
    (hNC : optIncludes (req.headers "cache-control") "no-cache" = false)
    (hL : store.lookup (generateGraphqlCacheKey req.body) = some entry) :
    gqlMiddleware cfg store req down =
      ({ status := 200, body := entry.body,
         setHeaders := if cfg.cacheHeaders then entry.headers else [],
         nextInvoked := false,
         ops := [CacheOp.get (generateGraphqlCacheKey req.body)] }, store) := by
  simp [gqlMiddleware, hI, hA, hNC, hL]

/-- Witness for the amended C7: a stored entry is replayed with status 200,
its body and its headers, without running downstream. -/
theorem gql_hit_path_witness :
    List.lookup (generateGraphqlCacheKey reqPlain.body)
      [(generateGraphqlCacheKey reqPlain.body, someEntry)] = some someEntry ∧
    gqlMiddleware gqlCfg [(generateGraphqlCacheKey reqPlain.body, someEntry)] reqPlain
        downstreamOk =
      ({ status := 200, body := someEntry.body,
         setHeaders := if gqlCfg.cacheHeaders then someEntry.headers else [],
         nextInvoked := false,
         ops := [CacheOp.get (generateGraphqlCacheKey reqPlain.body)] },
       [(generateGraphqlCacheKey reqPlain.body, someEntry)]) :=
  ⟨by simp [List.lookup],
   gql_hit_path gqlCfg [(generateGraphqlCacheKey reqPlain.body, someEntry)] reqPlain
     downstreamOk someEntry (by decide) rfl rfl (by simp [List.lookup])⟩

/-- C7 counterexample: a 201 response is cached (it lies in the 2xx
cacheable range), but the subsequent hit replays it with status 200 — the
original status is not reproduced, since no status is stored. -/
theorem gql_hit_status_counterexample :
    (gqlMiddleware gqlCfg [] reqPlain down201).2 =
      [(generateGraphqlCacheKey gqlBody, mkStoredEntry gqlCfg down201)] ∧
    down201.status = 201 ∧
    (gqlMiddleware gqlCfg (gqlMiddleware gqlCfg [] reqPlain down201).2 reqPlain down201).1.status
      = 200 ∧
    (200 : Nat) ≠ 201 := by
  have hI : strIncludes gqlBody "IntrospectionQuery" = false := by decide
  have hstore : (gqlMiddleware gqlCfg [] reqPlain down201).2 =
      [(generateGraphqlCacheKey gqlBody, mkStoredEntry gqlCfg down201)] := by
    simp [gqlMiddleware, gqlAfterNext, reqPlain, gqlCfg, truthy, optIncludes, down201,
      strStartsWith, hI]
  refine ⟨hstore, rfl, ?_, by decide⟩
  rw [hstore]
  simp [gqlMiddleware, reqPlain, gqlCfg, truthy, optIncludes, List.lookup, hI]

/-- C10: whenever the request body contains the substring
`IntrospectionQuery` anywhere — the check is `body.includes(...)`, not a
structural test — the GraphQL middleware passes the request straight to the
downstream pipeline, issuing no provider operation and leaving the cache
untouched. -/
theorem introspection_substring_bypass (cfg : CacheConfig) (store : Store) (req : GqlRequest)
    (down : Downstream) (h : strIncludes req.body "IntrospectionQuery" = true) :
    gqlMiddleware cfg store req down =
      ({ status := down.status, body := down.body, setHeaders := [], nextInvoked := true,
         ops := [] }, store) := by
  simp [gqlMiddleware, h]

/-- Witness for C10: the marker only occurs inside a string literal of an
otherwise ordinary query, yet the cache is bypassed. -/
theorem introspection_substring_bypass_witness :
    strIncludes introBody "IntrospectionQuery" = true ∧
    gqlMiddleware gqlCfg [] reqIntro downstreamOk =
      ({ status := downstreamOk.status, body := downstreamOk.body, setHeaders := [],
         nextInvoked := true, ops := [] }, []) :=
  ⟨by decide, introspection_substring_bypass gqlCfg [] reqIntro downstreamOk (by decide)⟩

/-! # Redaction idempotence (C6) -/

theorem lit_eq : lit = '"' :: tlit := rfl

theorem tlit_eq : tlit = pwd8 ++ ['"', ':'] := rfl

theorem repl_eq : repl = '"' :: replTail := rfl

theorem pwd8_noquote : ∀ x ∈ pwd8, x ≠ '"' := by decide

theorem replaceAll_nil : replaceAll [] = [] := by
  rw [replaceAll.eq_def]

theorem replaceAll_cons_some {c : Char} {cs r : List Char} (h : matchAt (c :: cs) = some r) :
    replaceAll (c :: cs) = repl ++ replaceAll r := by
  rw [replaceAll.eq_def]
  dsimp only
  split
  next rest heq => rw [h] at heq; injection heq with he; rw [he]
  next heq => rw [h] at heq; cases heq

theorem replaceAll_cons_none {c : Char} {cs : List Char} (h : matchAt (c :: cs) = none) :
    replaceAll (c :: cs) = c :: replaceAll cs := by
  rw [replaceAll.eq_def]
  dsimp only
  split
  next rest heq => rw [h] at heq; cases heq
  next heq => rfl

theorem matchAt_cons_ne_quote {c : Char} (cs : List Char) (h : c ≠ '"') :
    matchAt (c :: cs) = none := by
  have hb : ('"' == c) = false := beq_eq_false_iff_ne.mpr (Ne.symm h)
  simp [matchAt, lit, List.isPrefixOf, hb]

theorem replaceAll_noquote_append {u v : List Char} (hu : ∀ x ∈ u, x ≠ '"') :
    replaceAll (u ++ v) = u ++ replaceAll v := by
  induction u with
  | nil => simp
  | cons x u' ih =>
    have hx : x ≠ '"' := hu x (by simp)
    rw [List.cons_append, replaceAll_cons_none (matchAt_cons_ne_quote _ hx),
      ih (fun y hy => hu y (by simp [hy]))]
    rfl

theorem replaceAll_noquote {u : List Char} (hu : ∀ x ∈ u, x ≠ '"') : replaceAll u = u := by
  have h := replaceAll_noquote_append (v := []) hu
  simpa [replaceAll_nil] using h

theorem matchAt_repl_append (t : List Char) : matchAt (repl ++ t) = some t := rfl

theorem replaceAll_repl_append (t : List Char) :
    replaceAll (repl ++ t) = repl ++ replaceAll t := by
  have h : matchAt ('"' :: (replTail ++ t)) = some t := matchAt_repl_append t
  have e : repl ++ t = '"' :: (replTail ++ t) := rfl
  rw [e, replaceAll_cons_some h]

theorem matchAt_quote_colon (w : List Char) : matchAt ('"' :: ':' :: w) = none := rfl

theorem replaceAll_tlit_append (w : List Char) :
    replaceAll (tlit ++ w) = tlit ++ replaceAll w := by
  have e : tlit ++ w = pwd8 ++ ('"' :: ':' :: w) := rfl
  rw [e, replaceAll_noquote_append pwd8_noquote,
    replaceAll_cons_none (matchAt_quote_colon w),
    replaceAll_cons_none (matchAt_cons_ne_quote w (by decide))]
  rfl

theorem matchAt_lit_append (w : List Char) : matchAt (lit ++ w) = matchTail w := by
  have hp : lit.isPrefixOf (lit ++ w) = true :=
    List.isPrefixOf_iff_prefix.mpr (List.prefix_append lit w)
  have hd : (lit ++ w).drop 11 = w := List.drop_left lit w
  simp [matchAt, hp, hd]

theorem matchTail_none_of_ws_nil {t : List Char} (h : t.dropWhile isJsWs = []) :
    matchTail t = none := by
  simp [matchTail, h]

theorem matchTail_none_of_head_ne_quote {t : List Char} {x : Char} {r : List Char}
    (h : t.dropWhile isJsWs = x :: r) (hx : x ≠ '"') : matchTail t = none := by
  simp [matchTail, h, hx]

theorem matchTail_none_of_noclose {t : List Char} {s3 : List Char}
    (h : t.dropWhile isJsWs = '"' :: s3) (h2 : s3.dropWhile notQuote = []) :
    matchTail t = none := by
  simp [matchTail, h, h2]

theorem matchTail_some_of {t s3 s5 : List Char} {y : Char}
    (h1 : t.dropWhile isJsWs = '"' :: s3) (h2 : s3.dropWhile notQuote = y :: s5)
    (hy : y = '"') : matchTail t = some s5 := by
  simp [matchTail, h1, h2, hy]

theorem dropWhile_append_all {p : Char → Bool} {u v : List Char} (hu : ∀ x ∈ u, p x) :
    (u ++ v).dropWhile p = v.dropWhile p := by
  induction u with
  | nil => rfl
  | cons x u' ih =>
    rw [List.cons_append, List.dropWhile_cons_of_pos (hu x (by simp))]
    exact ih (fun y hy => hu y (by simp [hy]))

theorem matchAt_quote_noquote_tail {r : List Char} (hr : ∀ x ∈ r, x ≠ '"') :
    matchAt ('"' :: r) = none := by
  have hnp : ¬ (lit.isPrefixOf ('"' :: r) = true) := by
    intro hp
    rw [List.isPrefixOf_iff_prefix, lit_eq, List.cons_prefix_cons] at hp
    obtain ⟨t, ht⟩ := hp.2
    have hmem : '"' ∈ r := by
      rw [← ht, tlit_eq]
      simp
    exact hr _ hmem rfl
  unfold matchAt
  rw [if_neg hnp]

theorem prefix_transfer {u : List Char} (hu : ∀ x ∈ u, x ≠ '"') :
    ∀ {v cs : List Char}, (u ++ v) <+: replaceAll cs →
      ∃ cs2, cs = u ++ cs2 ∧ v <+: replaceAll cs2 := by
  induction u with
  | nil => exact fun h => ⟨_, rfl, h⟩
  | cons x u' ih =>
    intro v cs h
    match cs with
    | [] =>
      rw [replaceAll_nil] at h
      simp at h
    | d :: ds =>
      cases hm : matchAt (d :: ds) with
      | some r =>
        rw [replaceAll_cons_some hm, repl_eq, List.cons_append, List.cons_append,
          List.cons_prefix_cons] at h
        exact absurd h.1 (hu x (by simp))
      | none =>
        rw [replaceAll_cons_none hm, List.cons_append, List.cons_prefix_cons] at h
        obtain ⟨hxd, h2⟩ := h
        obtain ⟨cs2, hcs2, hv⟩ := ih (fun y hy => hu y (by simp [hy])) h2
        exact ⟨cs2, by rw [hcs2, hxd, List.cons_append], hv⟩

theorem colon_prefix : ∀ (ds : List Char), [':'] <+: replaceAll ds → ∃ es, ds = ':' :: es := by
  intro ds h
  match ds with
  | [] =>
    rw [replaceAll_nil] at h
    simp at h
  | e :: es =>
    cases hm : matchAt (e :: es) with
    | some r =>
      rw [replaceAll_cons_some hm, repl_eq, List.cons_append, List.cons_prefix_cons] at h
      exact absurd h.1 (by decide)
    | none =>
      rw [replaceAll_cons_none hm, List.cons_prefix_cons] at h
      exact ⟨es, by rw [h.1]⟩

theorem quote_colon_prefix : ∀ (cs : List Char), ['"', ':'] <+: replaceAll cs →
    ∃ es, cs = '"' :: ':' :: es := by
  intro cs h
  match cs with
  | [] =>
    rw [replaceAll_nil] at h
    simp at h
  | d :: ds =>
    cases hm : matchAt (d :: ds) with
    | some r =>
      rw [replaceAll_cons_some hm, repl_eq, List.cons_append, List.cons_prefix_cons] at h
      have : [':'] <+: replTail ++ replaceAll r := h.2
      rw [show replTail ++ replaceAll r = 'p' :: (replTail.tail ++ replaceAll r) from rfl,
        List.cons_prefix_cons] at this
      exact absurd this.1 (by decide)
    | none =>
      rw [replaceAll_cons_none hm, List.cons_prefix_cons] at h
      obtain ⟨es, hes⟩ := colon_prefix ds h.2
      exact ⟨es, by rw [h.1, hes]⟩

theorem matchTail_none_stable {w : List Char} (h : matchTail w = none) :
    matchTail (replaceAll w) = none := by
  have hws : ∀ x ∈ w.takeWhile isJsWs, x ≠ '"' := by
    intro x hx he
    have hp := List.mem_takeWhile_imp hx
    subst he
    simp [isJsWs] at hp
  have h1 : replaceAll w = w.takeWhile isJsWs ++ replaceAll (w.dropWhile isJsWs) := by
    conv_lhs => rw [← List.takeWhile_append_dropWhile (p := isJsWs) (l := w)]
    exact replaceAll_noquote_append hws
  have hwsp : ∀ x ∈ w.takeWhile isJsWs, isJsWs x := fun x hx => List.mem_takeWhile_imp hx
  cases hw2 : w.dropWhile isJsWs with
  | nil =>
    rw [h1, hw2, replaceAll_nil, List.append_nil]
    apply matchTail_none_of_ws_nil
    rw [List.dropWhile_eq_nil_iff]
    exact hwsp
  | cons X r =>
    have hX : isJsWs X = false := by
      have hh := List.head?_dropWhile_not isJsWs w
      rw [hw2] at hh
      simpa using hh
    by_cases hXq : X = '"'
    · subst hXq
      have hr : r.dropWhile notQuote = [] := by
        cases hd : r.dropWhile notQuote with
        | nil => rfl
        | cons y s5 =>
          have hy : notQuote y = false := by
            have hh := List.head?_dropWhile_not notQuote r
            rw [hd] at hh
            simpa using hh
          have hy' : y = '"' := by
            simpa [notQuote] using hy
          rw [matchTail_some_of hw2 hd hy'] at h
          cases h
      have hrnq : ∀ x ∈ r, x ≠ '"' := by
        intro x hx he
        have := List.dropWhile_eq_nil_iff.mp hr x hx
        subst he
        simp [notQuote] at this
      have h2 : replaceAll ('"' :: r) = '"' :: r := by
        rw [replaceAll_cons_none (matchAt_quote_noquote_tail hrnq), replaceAll_noquote hrnq]
      rw [h1, hw2, h2]
      have hdw : (w.takeWhile isJsWs ++ '"' :: r).dropWhile isJsWs = '"' :: r := by
        rw [dropWhile_append_all hwsp, List.dropWhile_cons_of_neg (by simp [isJsWs])]
      exact matchTail_none_of_noclose hdw hr
    · have h3 : replaceAll (X :: r) = X :: replaceAll r :=
        replaceAll_cons_none (matchAt_cons_ne_quote _ hXq)
      rw [h1, hw2, h3]
      have hdw : (w.takeWhile isJsWs ++ X :: replaceAll r).dropWhile isJsWs
          = X :: replaceAll r := by
        rw [dropWhile_append_all hwsp, List.dropWhile_cons_of_neg (by simp [hX])]
      exact matchTail_none_of_head_ne_quote hdw hXq

theorem matchAt_none_stable {c : Char} {cs : List Char} (h : matchAt (c :: cs) = none) :
    matchAt (c :: replaceAll cs) = none := by
  by_cases hq : c = '"'
  · subst hq
    by_cases hp : lit.isPrefixOf ('"' :: cs) = true
    · obtain ⟨w, hw⟩ : ∃ w, cs = tlit ++ w := by
        rw [List.isPrefixOf_iff_prefix, lit_eq, List.cons_prefix_cons] at hp
        obtain ⟨t, ht⟩ := hp.2
        exact ⟨t, ht.symm⟩
      subst hw
      have hlit1 : ('"' : Char) :: (tlit ++ w) = lit ++ w := rfl
      have hlit2 : ('"' : Char) :: (tlit ++ replaceAll w) = lit ++ replaceAll w := rfl
      rw [hlit1, matchAt_lit_append] at h
      rw [replaceAll_tlit_append, hlit2, matchAt_lit_append]
      exact matchTail_none_stable h
    · have hnp : ¬ (lit.isPrefixOf ('"' :: replaceAll cs) = true) := by
        intro hp2
        apply hp
        rw [List.isPrefixOf_iff_prefix, lit_eq, List.cons_prefix_cons] at hp2
        have htl : tlit <+: replaceAll cs := hp2.2
        rw [tlit_eq] at htl
        obtain ⟨cs2, hcs2, hqc⟩ := prefix_transfer pwd8_noquote htl
        obtain ⟨es, hes⟩ := quote_colon_prefix cs2 hqc
        rw [List.isPrefixOf_iff_prefix, lit_eq, List.cons_prefix_cons]
        refine ⟨rfl, ?_⟩
        rw [hcs2, hes, tlit_eq]
        exact ⟨es, by simp⟩
      unfold matchAt
      rw [if_neg hnp]
  · exact matchAt_cons_ne_quote _ hq

theorem matchAt_some_length {s r : List Char} (h : matchAt s = some r) : r.length < s.length := by
  unfold matchAt at h
  by_cases hp : lit.isPrefixOf s = true
  · rw [if_pos hp] at h
    have hlen : 11 ≤ s.length := by
      have := (List.isPrefixOf_iff_prefix.mp hp).length_le
      simpa [lit] using this
    unfold matchTail at h
    split at h
    next => cases h
    next x s3 hw =>
      have hs3 : s3.length + 1 ≤ s.length - 11 := by
        have hle := (List.dropWhile_sublist (l := s.drop 11) isJsWs).length_le
        rw [hw] at hle
        simpa using hle
      split at h
      · split at h
        next => cases h
        next y s5 hv =>
          have hs5 : s5.length < s3.length := by
            have hle := (List.dropWhile_sublist (l := s3) notQuote).length_le
            rw [hv] at hle
            simp at hle
            omega
          split at h
          · cases h
            omega
          · cases h
      · cases h
  · rw [if_neg hp] at h
    cases h

theorem replaceAll_idem_bounded : ∀ (n : Nat) (s : List Char), s.length ≤ n →
    replaceAll (replaceAll s) = replaceAll s := by
  intro n
  induction n with
  | zero =>
    intro s hs
    have he : s = [] := List.length_eq_zero.mp (Nat.le_zero.mp hs)
    subst he
    rw [replaceAll_nil, replaceAll_nil]
  | succ n ih =>
    intro s hs
    match s with
    | [] => rw [replaceAll_nil, replaceAll_nil]
    | c :: cs =>
      cases hm : matchAt (c :: cs) with
      | some r =>
        have hlt := matchAt_some_length hm
        rw [replaceAll_cons_some hm, replaceAll_repl_append,
          ih r (by simp at hs hlt ⊢; omega)]
      | none =>
        rw [replaceAll_cons_none hm,
          replaceAll_cons_none (matchAt_none_stable hm),
          ih cs (by simp at hs; omega)]

theorem replaceAll_idem (s : List Char) : replaceAll (replaceAll s) = replaceAll s :=
  replaceAll_idem_bounded s.length s le_rfl


/-- C6: the password redaction
`payload.replace(/"password":\s*"[^"]*"/g, '"password":"***"')` is
idempotent — redacting an already-redacted payload changes nothing — and
consequently `generateGraphqlCacheKey` of a once-redacted payload equals
`generateGraphqlCacheKey` of the original payload. -/
theorem sanitize_idempotent (p : String) :
    sanitize (sanitize p) = sanitize p ∧
    generateGraphqlCacheKey (sanitize p) = generateGraphqlCacheKey p := by
  have h : sanitize (sanitize p) = sanitize p := congrArg String.mk (replaceAll_idem p.data)
  exact ⟨h, by unfold generateGraphqlCacheKey; rw [h]⟩

end StrapiCache
